import Mathlib

/-!
Verification of the eqidis-scripts conversion programs.

The development shallow-embeds the three Python scripts of the repository:

* `PolizasOdooToContpaqi/xml_to_contpaqi_xls_v2.py`  (namespace `XmlV2`)
* `CuentasOdooToContpaqi/entry_to_template.py`       (namespace `EntryTmpl`)
* `CuentasOdooToContpaqi/MergeAccounts/merge_accounts.py` (namespace `MergeAcc`)

Python strings are modelled as Lean `String` manipulated through their
character lists (`String.data`), so that every definition is executable by
kernel reduction.  Python `float` amounts are modelled as rationals read by a
plain decimal parser; no verified claim depends on float semantics.
-/

/-! ## Python string primitives -/

/-- Python `s.lower()` restricted to its ASCII behaviour (character-wise). -/
def pyLower (s : String) : String := String.mk (s.data.map Char.toLower)

/-- Python `s.upper()` restricted to its ASCII behaviour (character-wise). -/
def pyUpper (s : String) : String := String.mk (s.data.map Char.toUpper)

/-- Python `s.strip()`: remove leading and trailing whitespace. -/
def pyStrip (s : String) : String :=
  String.mk (((s.data.dropWhile Char.isWhitespace).reverse.dropWhile
    Char.isWhitespace).reverse)

/-- Substring test on character lists: `needle` occurs contiguously in `hay`
(Python's `needle in hay`). -/
def subStr : List Char → List Char → Bool
  | n, [] => n.isEmpty
  | n, c :: t => n.isPrefixOf (c :: t) || subStr n t

/-- Python `needle in hay` for strings. -/
def containsSub (needle hay : String) : Bool := subStr needle.data hay.data

/-- Split a character list at every occurrence of `sep` (Python `split`). -/
def splitChar (sep : Char) : List Char → List (List Char)
  | [] => [[]]
  | c :: t =>
    if c = sep then [] :: splitChar sep t
    else
      match splitChar sep t with
      | [] => [[c]]
      | g :: gs => (c :: g) :: gs

/-- The digit characters of `s`, in order (Python `re.sub(r"[^0-9]", "", s)`). -/
def digitsOf (s : String) : String := String.mk (s.data.filter Char.isDigit)

/-- Numeric value of a list of digit characters (most significant first). -/
def digitsVal (l : List Char) : Nat := l.foldl (fun a c => a * 10 + (c.toNat - 48)) 0

/-- Decimal parser standing in for Python `float(s)` on the amount strings the
scripts consume: optional sign, digits, optional fractional part.  Exponents,
`inf`/`nan` and other `float` syntax are out of scope; no verified claim
depends on them. -/
def parseDecimal? (s : String) : Option ℚ :=
  let cs := (s.data.dropWhile Char.isWhitespace).reverse.dropWhile Char.isWhitespace
  let cs := cs.reverse
  let (sign, cs) : ℚ × List Char :=
    match cs with
    | '-' :: t => (-1, t)
    | '+' :: t => (1, t)
    | t => (1, t)
  let intPart := cs.takeWhile Char.isDigit
  let rest := cs.dropWhile Char.isDigit
  match rest with
  | [] => if intPart = [] then none else some (sign * (digitsVal intPart : ℚ))
  | '.' :: frac =>
    if frac.all Char.isDigit ∧ (intPart ≠ [] ∨ frac ≠ []) then
      some (sign * ((digitsVal intPart : ℚ) +
        (digitsVal frac : ℚ) / ((10 : ℚ) ^ frac.length)))
    else none
  | _ => none

/-- `safe_float` (both póliza scripts): parse a float, defaulting to `0.0`. -/
def safe_float (s : String) : ℚ := (parseDecimal? s).getD 0

/-- Python `round(x, 2)` modelled on rationals (round to nearest hundredth,
ties away from the floor).  No verified claim depends on the tie rule. -/
def round2 (q : ℚ) : ℚ := ((⌊q * 100 + 1/2⌋ : ℤ) : ℚ) / 100

/-- Python `s.replace(needle, repl)` on character lists (all non-overlapping
occurrences, scanning left to right). -/
def pyReplace (needle repl : List Char) : List Char → List Char
  | [] => []
  | c :: t =>
    if needle ≠ [] ∧ needle.isPrefixOf (c :: t) then
      repl ++ pyReplace needle repl ((c :: t).drop needle.length)
    else
      c :: pyReplace needle repl t
termination_by l => l.length
decreasing_by
  · simp only [List.length_drop, List.length_cons]
    rename_i h
    have : needle.length ≠ 0 := by
      intro hlen
      exact h.1 (List.length_eq_zero.mp hlen)
    omega
  · simp

/-! ## `xml_to_contpaqi_xls_v2.py` -/

namespace XmlV2

/-- `text_lower` of the script: `(x or "").lower()`. -/
def text_lower (x : String) : String := pyLower x

/-- `TOTAL_DIGITS` constant of the script. -/
def TOTAL_DIGITS : Nat := 8

/-- `normalize_account_code`: strip non-digits, empty becomes all zeros,
otherwise left-justify-pad with `'0'` to `total_digits` characters. -/
def normalize_account_code (account_digits : String)
    (total_digits : Nat) : String :=
  if account_digits = "" then String.mk (List.replicate total_digits '0')
  else
    let clean_code := account_digits.data.filter Char.isDigit
    if clean_code = [] then String.mk (List.replicate total_digits '0')
    else String.mk (clean_code ++ List.replicate (total_digits - clean_code.length) '0')

/-- `truncate_referencia`: truncate to at most `max_length` characters. -/
def truncate_referencia (referencia : String) (max_length : Nat) : String :=
  if referencia = "" then ""
  else if referencia.length ≤ max_length then referencia
  else String.mk (referencia.data.take max_length)

/-- The five accounting roles inferred for accounts. -/
inductive Role
  | bank
  | customer
  | supplier
  | income
  | expense
deriving DecidableEq

/-- An entry of the "Grupos de cuentas" CSV catalogue, as retained by
`load_account_groups_csv`: a non-empty numeric prefix (already stripped of
non-digits there) and the group name. -/
structure AccountGroup where
  prefix_digits : String
  name : String
deriving DecidableEq

/-- An item of the role index built by `build_account_role_index`. -/
structure RoleRule where
  prefix_digits : String
  name : String
  roles : List Role
deriving DecidableEq

/-- `infer_account_roles_from_group`: the role set derived from keywords of
the group name and the leading digit of the prefix.  The Python set is
modelled as a list with one element per `roles.add` site (the two `expense`
sites are merged by disjunction, matching set semantics). -/
def infer_account_roles_from_group (prefix_digits group_name : String) : List Role :=
  let name_lower := text_lower group_name
  let first_digit : Option Char := prefix_digits.data.head?
  (if containsSub "banco" name_lower || containsSub "bancos" name_lower ||
      containsSub "caja" name_lower then [Role.bank] else []) ++
  (if containsSub "clientes" name_lower then [Role.customer] else []) ++
  (if containsSub "proveedores" name_lower || containsSub "acreedores" name_lower
      then [Role.supplier] else []) ++
  (if first_digit = some '4' || containsSub "ingresos" name_lower
      then [Role.income] else []) ++
  (if first_digit = some '5' || first_digit = some '6' || first_digit = some '7' ||
      containsSub "gastos" name_lower || containsSub "costo" name_lower
      then [Role.expense] else [])

/-- The unsorted role rules, one per catalogue group. -/
def role_rules (groups : List AccountGroup) : List RoleRule :=
  groups.map fun g =>
    ⟨g.prefix_digits, g.name, infer_account_roles_from_group g.prefix_digits g.name⟩

/-- `build_account_role_index`: precompute the roles of every prefix and sort
the index by descending prefix length (`index.sort(key=len, reverse=True)`,
a stable sort, like Lean's `mergeSort`). -/
def build_account_role_index (groups : List AccountGroup) : List RoleRule :=
  (role_rules groups).mergeSort
    (fun a b => decide (b.prefix_digits.length ≤ a.prefix_digits.length))

/-- `clean_code.startswith(pref)` for a rule. -/
def rule_matches (clean_code : String) (item : RoleRule) : Bool :=
  item.prefix_digits.data.isPrefixOf clean_code.data

/-- The leading-digit fallback of `get_roles_for_account`. -/
def fallback_roles (clean_code : String) : List Role :=
  match clean_code.data.head? with
  | some '4' => [Role.income]
  | some '5' => [Role.expense]
  | some '6' => [Role.expense]
  | some '7' => [Role.expense]
  | _ => []

/-- `get_roles_for_account`: strip non-digits from the account reference, take
the first rule of the (descending-length-sorted) index whose prefix matches,
and fall back to the leading-digit rule otherwise. -/
def get_roles_for_account (numcta : String) (account_role_index : List RoleRule) :
    List Role :=
  if numcta = "" then []
  else
    let clean_code := digitsOf numcta
    if clean_code = "" then []
    else
      match account_role_index.find? (rule_matches clean_code) with
      | some item => item.roles
      | none => fallback_roles clean_code

/-- A `Transaccion` as parsed from the XML (`parse_xml_polizas`): attribute
strings plus the attribute dictionaries of the nested `CompNal` elements. -/
structure Transaccion where
  Concepto : String
  DesCta : String
  NumCta : String
  Haber : String
  Debe : String
  CompNal : List (List (String × String))
deriving DecidableEq

/-- One of the five `has_*` booleans accumulated by the loop of
`determine_tipopol_v2`: set exactly when some transaction's account roles
contain `r`. -/
def entry_role_flag (transacciones : List Transaccion)
    (account_role_index : List RoleRule) (r : Role) : Bool :=
  transacciones.any fun t =>
    (get_roles_for_account t.NumCta account_role_index).contains r

/-- `determine_tipopol_v2`: aggregate the five role booleans over all
transactions, then classify 1 (ingreso), 2 (egreso) or 3 (diario). -/
def determine_tipopol_v2 (transacciones : List Transaccion)
    (account_role_index : List RoleRule) : Nat :=
  if entry_role_flag transacciones account_role_index Role.bank &&
      (entry_role_flag transacciones account_role_index Role.customer ||
        entry_role_flag transacciones account_role_index Role.income) then 1
  else if entry_role_flag transacciones account_role_index Role.bank &&
      (entry_role_flag transacciones account_role_index Role.supplier ||
        entry_role_flag transacciones account_role_index Role.expense) then 2
  else 3

/-- Some posting of the entry references an account carrying role `r`. -/
def entry_has_role (ts : List Transaccion) (idx : List RoleRule) (r : Role) : Prop :=
  ∃ t ∈ ts, r ∈ get_roles_for_account t.NumCta idx

/-- A `Poliza` as parsed from the XML (`parse_xml_polizas`). -/
structure Poliza where
  Fecha : String
  Concepto : String
  NumUnIdenPol : String
  Transacciones : List Transaccion
deriving DecidableEq

/-- Gregorian leap year. -/
def isLeap (y : Nat) : Bool := (y % 4 = 0 && y % 100 ≠ 0) || y % 400 = 0

/-- Days of month `m` of year `y`. -/
def daysInMonth (y m : Nat) : Nat :=
  if m = 2 then (if isLeap y then 29 else 28)
  else if m = 4 ∨ m = 6 ∨ m = 9 ∨ m = 11 then 30
  else 31

/-- Zero-pad the decimal representation of `n` to `width` characters. -/
def padNum (width n : Nat) : String :=
  let s := toString n
  String.mk (List.replicate (width - s.length) '0' ++ s.data)

/-- `datetime.strptime(fecha, "%Y-%m-%d")`: three dash-separated decimal
fields, month 1–12, day within the month, year 1–9999 with at most four
digits. -/
def parseYMD? (fecha : String) : Option (Nat × Nat × Nat) :=
  match splitChar '-' fecha.data with
  | [ys, ms, ds] =>
    if ys ≠ [] ∧ ys.all Char.isDigit ∧ ys.length ≤ 4 ∧
        ms ≠ [] ∧ ms.all Char.isDigit ∧ ms.length ≤ 2 ∧
        ds ≠ [] ∧ ds.all Char.isDigit ∧ ds.length ≤ 2 then
      let y := digitsVal ys
      let m := digitsVal ms
      let d := digitsVal ds
      if 1 ≤ y ∧ 1 ≤ m ∧ m ≤ 12 ∧ 1 ≤ d ∧ d ≤ daysInMonth y m then
        some (y, m, d)
      else none
    else none
  | _ => none

/-- The `fecha_fmt` computation: `strftime("%Y%m%d")` on success, otherwise
remove `-` and `/` from the raw string. -/
def format_fecha (fecha : String) : String :=
  match parseYMD? fecha with
  | some (y, m, d) => padNum 4 y ++ padNum 2 m ++ padNum 2 d
  | none => String.mk (fecha.data.filter fun c => ¬(c = '-' ∨ c = '/'))

/-- An output spreadsheet row of the journal builder, tagged by its
record-type column; the remaining constructor fields are the row's cells in
source order (the `AM`/`AD` rows carry nine empty padding cells, omitted
here). -/
inductive Row
  | P (fecha : String) (tipo folio clase idDiario : Nat)
      (concepto : String) (sistOrig impresa ajuste : Nat) (guid : String)
  | M1 (idcuenta referencia : String) (tipomov : Nat) (importe : ℚ)
      (idDiario importeME : Nat)
      (concepto idSegNeg guid fechaAplicacion : String)
  | AM (uuid : String)
  | AD (uuid : String)
deriving DecidableEq

/-- Python truthiness of an optional string (`None` and `""` are falsy). -/
def truthyOpt (a : Option String) : Bool :=
  match a with
  | none => false
  | some t => t ≠ ""

/-- Python `a or b` on optional strings. -/
def pyor (a b : Option String) : Option String := if truthyOpt a then a else b

/-- `c.get(k)` on an XML attribute dictionary. -/
def attrGet (c : List (String × String)) (k : String) : Option String :=
  (c.find? fun p => p.1 = k).map fun p => p.2

/-- The UUID extraction applied to one `CompNal` attribute dictionary:
`c.get("UUID_CFDI") or c.get("UUID_CFDI".upper()) or c.get("UUID", "")`,
retried over `UUID`/`uuid`/`uuid_cfdi` when falsy. -/
def compnal_uuid (c : List (String × String)) : String :=
  let u0 := (pyor (pyor (attrGet c "UUID_CFDI") (attrGet c "UUID_CFDI"))
    (some ((attrGet c "UUID").getD ""))).getD ""
  if u0 = "" then
    (pyor (pyor (attrGet c "UUID") (attrGet c "uuid"))
      (some ((attrGet c "uuid_cfdi").getD ""))).getD ""
  else u0

/-- The `AM` rows of one transaction: one per `CompNal` with a usable UUID. -/
def trans_am_rows (t : Transaccion) : List Row :=
  t.CompNal.filterMap fun c =>
    if compnal_uuid c = "" then none else some (Row.AM (compnal_uuid c))

/-- The UUIDs appended to `ad_uuids` while processing one transaction. -/
def trans_uuids (t : Transaccion) : List String :=
  t.CompNal.filterMap fun c =>
    if compnal_uuid c = "" then none else some (compnal_uuid c)

/-- The `M1` row of one transaction. -/
def m1_row (referencia : String) (t : Transaccion) : Row :=
  let idcuenta := normalize_account_code t.NumCta TOTAL_DIGITS
  let haber := safe_float (if t.Haber = "" then "0" else t.Haber)
  let debe := safe_float (if t.Debe = "" then "0" else t.Debe)
  let tipomov := if haber ≠ 0 ∧ |haber| > 0 then 1 else 0
  let importe := if haber ≠ 0 ∧ |haber| > 0 then |haber| else |debe|
  let concepto_movimiento :=
    if containsSub "Pago efectivo - " t.Concepto then
      String.mk (pyReplace ("Pago efectivo - ".data) [] t.Concepto.data)
    else t.Concepto
  Row.M1 idcuenta referencia tipomov (round2 importe) 0 0
    concepto_movimiento "" "" ""

/-- The skip test of `build_rows_from_parsed_v2`: some transaction's
`Concepto` or `DesCta` contains the suspense-account marker. -/
def poliza_excluded (pol : Poliza) : Bool :=
  pol.Transacciones.any fun t =>
    containsSub "cuenta transitoria" (text_lower t.Concepto) ||
    containsSub "cuenta transitoria" (text_lower t.DesCta)

/-- The `P` header row of one póliza. -/
def p_row (pol : Poliza) (account_role_index : List RoleRule) (folio : Nat) : Row :=
  let concepto_poliza :=
    if pyStrip pol.Concepto = "Pago efectivo" then pol.NumUnIdenPol
    else pol.Concepto ++ " - " ++ pol.NumUnIdenPol
  Row.P (format_fecha pol.Fecha)
    (determine_tipopol_v2 pol.Transacciones account_role_index)
    folio 1 0 concepto_poliza 11 0 0 ""

/-- The `M1`/`AM` block of one póliza, in transaction order. -/
def poliza_body (pol : Poliza) : List Row :=
  pol.Transacciones.flatMap fun t =>
    m1_row (truncate_referencia pol.NumUnIdenPol 30) t :: trans_am_rows t

/-- The `ad_uuids` list collected over the whole póliza. -/
def ad_uuids (pol : Poliza) : List String :=
  pol.Transacciones.flatMap trans_uuids

/-- All rows emitted for one (non-excluded) póliza at folio `folio`. -/
def poliza_rows (pol : Poliza) (account_role_index : List RoleRule)
    (folio : Nat) : List Row :=
  p_row pol account_role_index folio ::
    (poliza_body pol ++ (ad_uuids pol).map Row.AD)

/-- The loop of `build_rows_from_parsed_v2`, carrying the running folio. -/
def build_rows_aux (account_role_index : List RoleRule) :
    List Poliza → Nat → List Row
  | [], _ => []
  | pol :: rest, folio =>
    if poliza_excluded pol then build_rows_aux account_role_index rest folio
    else poliza_rows pol account_role_index folio ++
      build_rows_aux account_role_index rest (folio + 1)

/-- `build_rows_from_parsed_v2`: emit the row blocks of all non-excluded
pólizas, folio starting at 1. -/
def build_rows_from_parsed_v2 (polizas_parsed : List Poliza)
    (account_role_index : List RoleRule) : List Row :=
  build_rows_aux account_role_index polizas_parsed 1

/-- The folio column of every `P` record of a row list, in order. -/
def folios (rows : List Row) : List Nat :=
  rows.filterMap fun r =>
    match r with
    | Row.P _ _ folio _ _ _ _ _ _ _ => some folio
    | _ => none

/-- Whether a row is an `AD` trailer record. -/
def is_ad_row : Row → Bool
  | Row.AD _ => true
  | _ => false

/-- The UUIDs of the `AM` records of a row list, in order. -/
def am_uuids_of (rows : List Row) : List String :=
  rows.filterMap fun r =>
    match r with
    | Row.AM u => some u
    | _ => none

/-- Concrete fixture: a póliza whose header concept carries the
suspense-account marker while no posting text does. -/
def polConceptMarker : Poliza :=
  ⟨"2024-01-15", "Cuenta transitoria ajuste", "X1",
    [⟨"Abono", "Bancos", "1", "0", "10", []⟩]⟩

/-- Concrete fixture: a póliza with the suspense-account marker in a posting's
account description. -/
def polPostingMarker : Poliza :=
  ⟨"2024-01-16", "Traspaso", "X2",
    [⟨"Cargo", "Cuenta transitoria de bancos", "1", "5", "0", []⟩]⟩

/-- Concrete fixture: an ordinary póliza with no marker anywhere. -/
def polPlain : Poliza :=
  ⟨"2024-01-17", "Venta", "X3",
    [⟨"Cargo", "Clientes", "105", "0", "7", []⟩]⟩

/-- Concrete fixture: a póliza whose two postings attach the same document
UUID. -/
def polDupUuid : Poliza :=
  ⟨"2024-01-18", "Pago", "REF9",
    [⟨"Cargo", "Bancos", "102", "0", "10", [[("UUID_CFDI", "X")]]⟩,
     ⟨"Abono", "Clientes", "105", "10", "0", [[("UUID_CFDI", "X")]]⟩]⟩

end XmlV2

/-! C3 concerns `normalize_code` of `entry_to_template.py`, whose body is
identical to `XmlV2.normalize_account_code`; it is declared in its own
namespace below. -/

namespace EntryTmpl

/-- `TOTAL_DIGITS` constant of `entry_to_template.py`. -/
def TOTAL_DIGITS : Nat := 8

/-- `normalize_code` of `entry_to_template.py`: strip non-digits, empty becomes
all zeros, otherwise right-pad with `'0'` to `total_digits`. -/
def normalize_code (raw_code : String) (total_digits : Nat) : String :=
  if raw_code = "" then String.mk (List.replicate total_digits '0')
  else
    let clean_code := raw_code.data.filter Char.isDigit
    if clean_code = [] then String.mk (List.replicate total_digits '0')
    else String.mk (clean_code ++ List.replicate (total_digits - clean_code.length) '0')

/-- Strip every trailing `".0"` pair from a reversed character list
(`re.sub(r"(?:\.0)+$", "", s)` seen from the right end). -/
def stripDotZeroRev : List Char → List Char
  | '0' :: '.' :: t => stripDotZeroRev t
  | l => l

/-- `sanitize_code_str`: strip, keep only digits and dots, drop trailing
`".0"` groups. -/
def sanitize_code_str (s : String) : String :=
  if s = "" then ""
  else
    let s2 := (pyStrip s).data.filter fun c => c.isDigit || c = '.'
    String.mk (stripDotZeroRev s2.reverse).reverse

/-- The `(?:\.[0-9]+)*` groups of the code-extraction pattern: consume
dot-digit-groups greedily, returning the consumed characters and the rest
(greedy matching is equivalent to the regex here because a shorter match
always leaves a `'.'`, never whitespace, as the next character). -/
def dotGroups : List Char → List Char × List Char
  | '.' :: c :: t =>
    if c.isDigit then
      let ds := (c :: t).takeWhile Char.isDigit
      let rest := (c :: t).dropWhile Char.isDigit
      let p := dotGroups rest
      ('.' :: (ds ++ p.1), p.2)
    else ([], '.' :: c :: t)
  | l => ([], l)
termination_by l => l.length
decreasing_by
  simp only [List.length_cons]
  have h1 := (List.dropWhile_sublist (l := c :: t) (p := Char.isDigit)).length_le
  simp only [List.length_cons] at h1
  omega

/-- `extract_code_from_name`: match
`^\s*([0-9]+(?:\.[0-9]+)*)\s+(.+)$` against the name, returning the
stripped code group and the stripped remainder, or `(none, name.strip())`.
The one backtracking case of the regex — remainder consisting only of
whitespace, of which `(.+)` keeps the last character — strips to the same
result. -/
def extract_code_from_name (name : String) : Option String × String :=
  let rest0 := name.data.dropWhile Char.isWhitespace
  let ds := rest0.takeWhile Char.isDigit
  if ds = [] then (none, pyStrip name)
  else
    let p := dotGroups (rest0.dropWhile Char.isDigit)
    let ws := p.2.takeWhile Char.isWhitespace
    let rem := p.2.dropWhile Char.isWhitespace
    if ws = [] then (none, pyStrip name)
    else if rem ≠ [] then
      (some (pyStrip (String.mk (ds ++ p.1))), pyStrip (String.mk rem))
    else if 2 ≤ ws.length then
      (some (pyStrip (String.mk (ds ++ p.1))),
        pyStrip (String.mk (ws.drop (ws.length - 1))))
    else (none, pyStrip name)

/-- The duplicate-code strip of the code-cell branch:
`re.match(r'^\s*' + re.escape(raw_code) + r'\s+(.+)$', name_cell)`; on a
match the name becomes the stripped remainder, otherwise it is unchanged. -/
def strip_dup_code (raw_code name_cell : String) : String :=
  let rest0 := name_cell.data.dropWhile Char.isWhitespace
  if raw_code.data.isPrefixOf rest0 then
    let rest1 := rest0.drop raw_code.length
    let ws := rest1.takeWhile Char.isWhitespace
    let rem := rest1.dropWhile Char.isWhitespace
    if ws = [] then name_cell
    else if rem ≠ [] then pyStrip (String.mk rem)
    else if 2 ≤ ws.length then pyStrip (String.mk (ws.drop (ws.length - 1)))
    else name_cell
  else name_cell

/-- Python `int(s)` on the reference-table level strings: optional sign and
decimal digits, surrounded by optional whitespace. -/
def pyInt? (s : String) : Option Int :=
  let cs := ((s.data.dropWhile Char.isWhitespace).reverse.dropWhile
    Char.isWhitespace).reverse
  match cs with
  | '-' :: t => if t ≠ [] ∧ t.all Char.isDigit then some (-(digitsVal t : Int)) else none
  | '+' :: t => if t ≠ [] ∧ t.all Char.isDigit then some ((digitsVal t : Int)) else none
  | t => if t ≠ [] ∧ t.all Char.isDigit then some ((digitsVal t : Int)) else none

/-- One input row of the catalogue sheet: indent level (already shifted so the
minimum level is 1), code cell, name cell and type cell. -/
structure CatRow where
  indent : Nat
  codeCell : String
  nameCell : String
  tipoCell : String
deriving DecidableEq

/-- The varying fields of an emitted `"C"` output row; the record-type tag and
the constant numeric columns of the Python row list are implicit. -/
structure OutRow where
  codigo : String
  name : String
  cta_sup : String
  tipo : String
  cta_mayor : Int
  fecha : String
  id_agrupador : String
  found_in_sat : Option Bool
deriving DecidableEq

/-- The two Python dicts `parent_code_by_indent` / `parent_name_by_indent`. -/
structure BuildState where
  parent_code_by_indent : List (Nat × String)
  parent_name_by_indent : List (Nat × String)
deriving DecidableEq

/-- Dictionary assignment `d[k] = v` on an association list. -/
def dictInsert (d : List (Nat × String)) (k : Nat) (v : String) :
    List (Nat × String) :=
  if d.any fun p => p.1 = k then d.map fun p => if p.1 = k then (k, v) else p
  else d ++ [(k, v)]

/-- The deletion loop `for k in keys: if k > lvl: del d[k]`. -/
def dictDropGT (d : List (Nat × String)) (lvl : Nat) : List (Nat × String) :=
  d.filter fun p => decide (p.1 ≤ lvl)

/-- Dictionary lookup `d.get(k)`. -/
def dictGet? (d : List (Nat × String)) (k : Nat) : Option String :=
  (d.find? fun p => p.1 = k).map fun p => p.2

/-- The SAT reference dict of `build_catalog_rows`, abstracted as an
association list from lowercased names to (nivel, codigo) pairs; a lookup
takes the first matching entry. -/
def satGet? (sat : List (String × String × String)) (k : String) :
    Option (String × String) :=
  (sat.find? fun e => e.1 = k).map fun e => e.2

/-- Code/name recovery of one row: sanitize the code cell, else extract a code
from the name cell (dropping the row when neither yields one), and strip a
duplicated code prefix from the name in the code-cell branch. -/
def recover_code_name (r : CatRow) : Option (String × String) :=
  let name_cell := pyStrip r.nameCell
  let raw_code := sanitize_code_str (pyStrip r.codeCell)
  if raw_code = "" then
    match extract_code_from_name name_cell with
    | (some extracted, cleaned) =>
      let rc := sanitize_code_str extracted
      if rc = "" then none else some (rc, cleaned)
    | (none, _) => none
  else some (raw_code, strip_dup_code raw_code name_cell)

/-- The ancestor-stack update of one processed row: record the row at its own
indent level, then discard all entries at strictly deeper levels. -/
def step_state (st : BuildState) (indent : Nat) (code name : String) :
    BuildState :=
  ⟨dictDropGT (dictInsert st.parent_code_by_indent indent code) indent,
   dictDropGT (dictInsert st.parent_name_by_indent indent name) indent⟩

/-- The parent code (`cta_sup`) of a row at level `indent`: the normalized
stack entry at `indent - 1`, or the all-zero root code. -/
def step_cta_sup (st : BuildState) (indent : Nat) : String :=
  match (if 1 < indent then dictGet? st.parent_code_by_indent (indent - 1)
      else none) with
  | none => String.mk (List.replicate TOTAL_DIGITS '0')
  | some p => normalize_code p TOTAL_DIGITS

/-- The SAT classification fields of one emitted row: `(cta_mayor,
id_agrupador, found_in_sat)`, looked up by the row's own name, else inherited
from the (already updated) parent-name stack entry. -/
def step_sat_fields (sat : List (String × String × String)) (st' : BuildState)
    (indent : Nat) (name : String) : Int × String × Option Bool :=
  match satGet? sat (pyLower (pyStrip name)) with
  | some nc =>
    ((if nc.1 ≠ "" then
        match pyInt? nc.1 with
        | some v => v
        | none => 2
      else 2),
     nc.2, some true)
  | none =>
    match (if 1 < indent then dictGet? st'.parent_name_by_indent (indent - 1)
        else none) with
    | some pn =>
      if pn ≠ "" then
        match satGet? sat (pyLower (pyStrip pn)) with
        | some pc => (2, pc.2, some false)
        | none => (2, "", none)
      else (2, "", none)
    | none => (2, "", none)

/-- One iteration of the `build_catalog_rows` loop: the updated ancestor
stacks and the emitted row, if any. -/
def build_step (sat : List (String × String × String)) (today : String)
    (st : BuildState) (r : CatRow) : BuildState × Option OutRow :=
  match recover_code_name r with
  | none => (st, none)
  | some cn =>
    let st' := step_state st r.indent cn.1 cn.2
    let sf := step_sat_fields sat st' r.indent cn.2
    (st', some ⟨normalize_code cn.1 TOTAL_DIGITS, cn.2, step_cta_sup st r.indent,
      pyStrip r.tipoCell, sf.1, today, sf.2.1, sf.2.2⟩)

/-- The empty ancestor stacks. -/
def initState : BuildState := ⟨[], []⟩

/-- The loop of `build_catalog_rows` from a given state. -/
def build_catalog_aux (sat : List (String × String × String)) (today : String) :
    BuildState → List CatRow → List OutRow
  | _, [] => []
  | st, r :: rest =>
    match build_step sat today st r with
    | (st', none) => build_catalog_aux sat today st' rest
    | (st', some o) => o :: build_catalog_aux sat today st' rest

/-- `build_catalog_rows` (hierarchy and classification part): one output row
per input row with a recoverable code, in input order. -/
def build_catalog_rows (sat : List (String × String × String)) (today : String)
    (rows : List CatRow) : List OutRow :=
  build_catalog_aux sat today initState rows

/-- The ancestor stacks after processing a row prefix. -/
def stateAfter (sat : List (String × String × String)) (today : String)
    (st : BuildState) (rows : List CatRow) : BuildState :=
  rows.foldl (fun s r => (build_step sat today s r).1) st

/-- The (indent, raw code) pairs of the rows with a recoverable code. -/
def recovered_levels (rows : List CatRow) : List (Nat × String) :=
  rows.filterMap fun r => (recover_code_name r).map fun p => (r.indent, p.1)

/-- Scan processed (indent, code) pairs from the most recent backwards: a row
at level `l` supplies its code, while any intervening row at a level shallower
than `l` discards the deeper branch. -/
def mostRecentRev : List (Nat × String) → Nat → Option String
  | [], _ => none
  | (n, c) :: earlier, l =>
    if n = l then some c
    else if n < l then none
    else mostRecentRev earlier l

/-- The code of the most recently seen row at level `l` that has not been
discarded by a shallower row. -/
def mostRecentAt (rs : List (Nat × String)) (l : Nat) : Option String :=
  mostRecentRev rs.reverse l

/-- The reference table written to worksheet cells `L4:M13` by
`preprocess_entry_file`. -/
def referencia_data : List (String × String) :=
  [("A", "Activo Deudora"),
   ("B", "Activo Acreedora"),
   ("C", "Pasivo Deudora"),
   ("D", "Pasivo Acreedora"),
   ("E", "Capital Deudora"),
   ("F", "Capital Acredora"),
   ("G", "Resultados Deudora"),
   ("H", "Resultados Acreedora"),
   ("K", "Orden Deudora"),
   ("L", "Orden Acreedora")]

/-- The contents of worksheet column `L` at row `i`: the letters of
`referencia_data` occupy rows 4–13, every other cell is empty (`none`). -/
def colL_cell (i : Nat) : Option String :=
  if 4 ≤ i then (referencia_data.map fun p => p.1).get? (i - 4) else none

/-- The `first_char` computation of the formula builder: the name's first
character if it is a digit, else the code's first character if it is a
digit. -/
def formula_first_char (codigo nombre : String) : Option Char :=
  match nombre.data.head? with
  | some c =>
    if c.isDigit then some c
    else
      match codigo.data.head? with
      | some d => if d.isDigit then some d else none
      | none => none
  | none =>
    match codigo.data.head? with
    | some d => if d.isDigit then some d else none
    | none => none

/-- `l_deudora`: the column-`L` row referenced for the debit letter. -/
def l_deudora (digit : Nat) : Nat := 4 + 2 * (digit - 1)

/-- `l_acreedora`: the column-`L` row referenced for the credit letter. -/
def l_acreedora (digit : Nat) : Nat := 5 + 2 * (digit - 1)

/-- `default_value`: the `IFNA` fallback letter of the generated formula. -/
def default_value (digit : Nat) : String :=
  if digit = 1 then "A" else if digit = 2 then "D" else if digit = 3 then "F"
  else "A"

/-- The value computed by the generated column-`I` formula for a data row with
first digit taken from name/code and debit (`G`) and credit (`H`) magnitudes:
`$L$l_deudora` when debit exceeds credit, `$L$l_acreedora` when credit exceeds
debit, the default letter when equal, and the literal `"A"` when no first
digit in 1–9 exists.  `none` models a reference to an empty worksheet cell
(rows 14 and beyond of column `L`). -/
def nature_formula_result (codigo nombre : String) (debe haber : ℚ) :
    Option String :=
  match formula_first_char codigo nombre with
  | some c =>
    if c ∈ ['1', '2', '3', '4', '5', '6', '7', '8', '9'] then
      let digit := c.toNat - 48
      if debe > haber then colL_cell (l_deudora digit)
      else if haber > debe then colL_cell (l_acreedora digit)
      else some (default_value digit)
    else some "A"
  | none => some "A"

/-- Concrete fixture: the four-row indentation example of the hierarchy
claim. -/
def exampleRows : List CatRow :=
  [⟨1, "1", "Activo", ""⟩,
   ⟨2, "1.1", "Caja", ""⟩,
   ⟨3, "1.1.1", "Caja MXN", ""⟩,
   ⟨2, "1.2", "Bancos", ""⟩]

end EntryTmpl

/-! ## `merge_accounts.py` -/

namespace MergeAcc

/-- `normalize_code` of the merge script: missing/empty becomes `""`,
otherwise strip surrounding whitespace (no digit normalization here). -/
def normalize_code (code : String) : String := pyStrip code

/-- One retained account row: its normalized code and the full cell row. -/
structure Account where
  codigo : String
  row_data : List String
deriving DecidableEq

/-- The scan of `read_accounts_file`: keep rows whose first cell is `'C'`
(case-insensitively, stripped) with a non-empty normalized code not seen
before (first-seen-wins in file order). -/
def read_accounts_aux (seen : List String) : List (List String) → List Account
  | [] => []
  | row :: rest =>
    if pyUpper (pyStrip ((row[0]?).getD "")) = "C" then
      if normalize_code ((row[1]?).getD "") ≠ "" ∧
          normalize_code ((row[1]?).getD "") ∉ seen then
        ⟨normalize_code ((row[1]?).getD ""), row⟩ ::
          read_accounts_aux (normalize_code ((row[1]?).getD "") :: seen) rest
      else read_accounts_aux seen rest
    else read_accounts_aux seen rest

/-- `read_accounts_file` on an in-memory sheet. -/
def read_accounts (file : List (List String)) : List Account :=
  read_accounts_aux [] file

/-- The accounts of the additional file whose code is absent from the base
file's code set (`new_accounts` of `merge_accounts`). -/
def merge_new_accounts (base additional : List (List String)) : List Account :=
  (read_accounts additional).filter fun acc =>
    decide (acc.codigo ∉ (read_accounts base).map fun a => a.codigo)

/-- The rows of the merge result: the base sheet followed by the new accounts'
rows. -/
def merged_rows (base additional : List (List String)) : List (List String) :=
  base ++ (merge_new_accounts base additional).map fun a => a.row_data

end MergeAcc

/-! ## C3: length of the normalizer's output -/

/-- C3 (corrected claim): for every input and width, the normalizer returns a
string of length `max total_digits (number of digit characters)`: non-digits
are stripped, an all-non-digit input yields `total_digits` zeros, and the digit
string is right-padded with `'0'` — so the length is exactly `total_digits`
whenever the input carries at most `total_digits` digits, but a longer digit
string is returned unchanged, not truncated.  The same holds for the identical
`normalize_account_code` of the v2 póliza script. -/
theorem C3_normalize_code_length (raw : String) (total_digits : Nat) :
    (EntryTmpl.normalize_code raw total_digits).length =
      max total_digits (raw.data.filter Char.isDigit).length ∧
    (XmlV2.normalize_account_code raw total_digits).length =
      max total_digits (raw.data.filter Char.isDigit).length := by
  constructor
  · unfold EntryTmpl.normalize_code
    by_cases h0 : raw = ""
    · subst h0
      simp [String.length]
    · simp only [h0, if_false]
      by_cases h1 : raw.data.filter Char.isDigit = []
      · simp [h1, String.length]
      · simp only [h1, if_false, String.length]
        simp only [List.length_append, List.length_replicate]
        omega
  · unfold XmlV2.normalize_account_code
    by_cases h0 : raw = ""
    · subst h0
      simp [String.length]
    · simp only [h0, if_false]
      by_cases h1 : raw.data.filter Char.isDigit = []
      · simp [h1, String.length]
      · simp only [h1, if_false, String.length]
        simp only [List.length_append, List.length_replicate]
        omega

/-! ## C1: the role-based entry classifier -/

namespace XmlV2

lemma entry_role_flag_iff (ts : List Transaccion) (idx : List RoleRule) (r : Role) :
    entry_role_flag ts idx r = true ↔ entry_has_role ts idx r := by
  simp [entry_role_flag, entry_has_role, List.any_eq_true]

end XmlV2

/-- C1: under `determine_tipopol_v2`, an entry classifies as 1 exactly when its
postings' accounts include the bank role together with the customer or income
role; otherwise as 2 exactly when they include bank together with supplier or
expense; and as 3 otherwise.  In particular an entry posting only to a
bank-role account and a customer-role account classifies as 1, one posting
only to a bank-role and a supplier-role account classifies as 2, and one
posting only to two expense-role accounts (no bank) classifies as 3. -/
theorem C1_determine_tipopol_v2 (idx : List XmlV2.RoleRule)
    (ts : List XmlV2.Transaccion) (t1 t2 : XmlV2.Transaccion) :
    (XmlV2.determine_tipopol_v2 ts idx = 1 ↔
      XmlV2.entry_has_role ts idx XmlV2.Role.bank ∧
        (XmlV2.entry_has_role ts idx XmlV2.Role.customer ∨
          XmlV2.entry_has_role ts idx XmlV2.Role.income)) ∧
    (XmlV2.determine_tipopol_v2 ts idx = 2 ↔
      ¬(XmlV2.entry_has_role ts idx XmlV2.Role.bank ∧
          (XmlV2.entry_has_role ts idx XmlV2.Role.customer ∨
            XmlV2.entry_has_role ts idx XmlV2.Role.income)) ∧
        XmlV2.entry_has_role ts idx XmlV2.Role.bank ∧
        (XmlV2.entry_has_role ts idx XmlV2.Role.supplier ∨
          XmlV2.entry_has_role ts idx XmlV2.Role.expense)) ∧
    (XmlV2.determine_tipopol_v2 ts idx = 3 ↔
      ¬(XmlV2.entry_has_role ts idx XmlV2.Role.bank ∧
          (XmlV2.entry_has_role ts idx XmlV2.Role.customer ∨
            XmlV2.entry_has_role ts idx XmlV2.Role.income)) ∧
      ¬(XmlV2.entry_has_role ts idx XmlV2.Role.bank ∧
          (XmlV2.entry_has_role ts idx XmlV2.Role.supplier ∨
            XmlV2.entry_has_role ts idx XmlV2.Role.expense))) ∧
    (XmlV2.get_roles_for_account t1.NumCta idx = [XmlV2.Role.bank] →
      XmlV2.get_roles_for_account t2.NumCta idx = [XmlV2.Role.customer] →
      XmlV2.determine_tipopol_v2 [t1, t2] idx = 1) ∧
    (XmlV2.get_roles_for_account t1.NumCta idx = [XmlV2.Role.bank] →
      XmlV2.get_roles_for_account t2.NumCta idx = [XmlV2.Role.supplier] →
      XmlV2.determine_tipopol_v2 [t1, t2] idx = 2) ∧
    (XmlV2.get_roles_for_account t1.NumCta idx = [XmlV2.Role.expense] →
      XmlV2.get_roles_for_account t2.NumCta idx = [XmlV2.Role.expense] →
      XmlV2.determine_tipopol_v2 [t1, t2] idx = 3) := by
  have hb := XmlV2.entry_role_flag_iff ts idx XmlV2.Role.bank
  have hc := XmlV2.entry_role_flag_iff ts idx XmlV2.Role.customer
  have hs := XmlV2.entry_role_flag_iff ts idx XmlV2.Role.supplier
  have hi := XmlV2.entry_role_flag_iff ts idx XmlV2.Role.income
  have he := XmlV2.entry_role_flag_iff ts idx XmlV2.Role.expense
  refine ⟨?_, ?_, ?_, ?_, ?_, ?_⟩
  · unfold XmlV2.determine_tipopol_v2
    cases hB : XmlV2.entry_role_flag ts idx XmlV2.Role.bank <;>
      cases hC : XmlV2.entry_role_flag ts idx XmlV2.Role.customer <;>
        cases hI : XmlV2.entry_role_flag ts idx XmlV2.Role.income <;>
          cases hS : XmlV2.entry_role_flag ts idx XmlV2.Role.supplier <;>
            cases hE : XmlV2.entry_role_flag ts idx XmlV2.Role.expense <;>
              simp_all
  · unfold XmlV2.determine_tipopol_v2
    cases hB : XmlV2.entry_role_flag ts idx XmlV2.Role.bank <;>
      cases hC : XmlV2.entry_role_flag ts idx XmlV2.Role.customer <;>
        cases hI : XmlV2.entry_role_flag ts idx XmlV2.Role.income <;>
          cases hS : XmlV2.entry_role_flag ts idx XmlV2.Role.supplier <;>
            cases hE : XmlV2.entry_role_flag ts idx XmlV2.Role.expense <;>
              simp_all
  · unfold XmlV2.determine_tipopol_v2
    cases hB : XmlV2.entry_role_flag ts idx XmlV2.Role.bank <;>
      cases hC : XmlV2.entry_role_flag ts idx XmlV2.Role.customer <;>
        cases hI : XmlV2.entry_role_flag ts idx XmlV2.Role.income <;>
          cases hS : XmlV2.entry_role_flag ts idx XmlV2.Role.supplier <;>
            cases hE : XmlV2.entry_role_flag ts idx XmlV2.Role.expense <;>
              simp_all
  · intro h1 h2
    unfold XmlV2.determine_tipopol_v2 XmlV2.entry_role_flag
    simp only [List.any_cons, List.any_nil, h1, h2]
    decide
  · intro h1 h2
    unfold XmlV2.determine_tipopol_v2 XmlV2.entry_role_flag
    simp only [List.any_cons, List.any_nil, h1, h2]
    decide
  · intro h1 h2
    unfold XmlV2.determine_tipopol_v2 XmlV2.entry_role_flag
    simp only [List.any_cons, List.any_nil, h1, h2]
    decide

/-- C3 counterexample: a nine-digit input with `total_digits = 8` yields a
nine-character result, refuting "returns a string of length exactly
`total_digits`" for every input. -/
theorem C3_counterexample :
    (EntryTmpl.normalize_code "123456789" 8).length ≠ 8 ∧
    EntryTmpl.normalize_code "123456789" 8 = "123456789" := by
  constructor
  · decide
  · decide

/-! ## C4: longest-prefix role resolution -/

namespace XmlV2

lemma sorted_index (groups : List AccountGroup) :
    List.Pairwise
      (fun a b : RoleRule => b.prefix_digits.length ≤ a.prefix_digits.length)
      (build_account_role_index groups) := by
  unfold build_account_role_index
  have h := @List.sorted_mergeSort RoleRule
    (fun a b : RoleRule => decide (b.prefix_digits.length ≤ a.prefix_digits.length))
    (fun a b c hab hbc => by
      simp only [decide_eq_true_eq] at hab hbc ⊢
      omega)
    (fun a b => by
      simp only [Bool.or_eq_true, decide_eq_true_eq]
      omega)
    (role_rules groups)
  exact h.imp fun hab => by simpa using hab

lemma index_perm (groups : List AccountGroup) :
    (build_account_role_index groups).Perm (role_rules groups) :=
  List.mergeSort_perm _ _

lemma find?_max_sorted (clean : String) (l : List RoleRule)
    (hp : List.Pairwise
      (fun a b : RoleRule => b.prefix_digits.length ≤ a.prefix_digits.length) l)
    (r : RoleRule) (hf : l.find? (rule_matches clean) = some r) :
    ∀ x ∈ l, rule_matches clean x = true →
      x.prefix_digits.length ≤ r.prefix_digits.length := by
  induction l with
  | nil => simp at hf
  | cons a t ih =>
    rcases List.pairwise_cons.mp hp with ⟨ha, ht⟩
    by_cases hpa : rule_matches clean a = true
    · have : some a = some r := by
        simpa [List.find?_cons, hpa] using hf
      obtain rfl : a = r := by injection this
      intro x hx hmx
      rcases List.mem_cons.mp hx with rfl | hx
      · exact le_refl _
      · exact ha x hx
    · have hf' : t.find? (rule_matches clean) = some r := by
        simpa [List.find?_cons, hpa] using hf
      intro x hx hmx
      rcases List.mem_cons.mp hx with rfl | hx
      · exact absurd hmx hpa
      · exact ih ht hf' x hx hmx

end XmlV2

/-- C4: resolving an account code (with at least one digit) against the built
role index takes the rule whose numeric prefix is the longest prefix of the
code's digit string: the index is sorted by descending prefix length and the
first prefix match is taken, so the returned role set belongs to a matching
rule of maximal prefix length; when no rule's prefix matches, the result is
the leading-digit fallback (`income` for 4, `expense` for 5–7, empty
otherwise). -/
theorem C4_longest_prefix_wins (groups : List XmlV2.AccountGroup) (numcta : String)
    (h0 : numcta ≠ "") (h1 : digitsOf numcta ≠ "") :
    ((∃ r ∈ XmlV2.role_rules groups,
        XmlV2.rule_matches (digitsOf numcta) r = true) →
      ∃ r ∈ XmlV2.role_rules groups,
        XmlV2.rule_matches (digitsOf numcta) r = true ∧
        XmlV2.get_roles_for_account numcta (XmlV2.build_account_role_index groups) =
          r.roles ∧
        ∀ r' ∈ XmlV2.role_rules groups,
          XmlV2.rule_matches (digitsOf numcta) r' = true →
            r'.prefix_digits.length ≤ r.prefix_digits.length) ∧
    ((∀ r ∈ XmlV2.role_rules groups,
        ¬ XmlV2.rule_matches (digitsOf numcta) r = true) →
      XmlV2.get_roles_for_account numcta (XmlV2.build_account_role_index groups) =
        XmlV2.fallback_roles (digitsOf numcta)) := by
  have hperm := XmlV2.index_perm groups
  constructor
  · intro hex
    rcases hex with ⟨r0, hr0mem, hr0m⟩
    have hmem' : r0 ∈ XmlV2.build_account_role_index groups :=
      hperm.mem_iff.mpr hr0mem
    have hsome : (XmlV2.build_account_role_index groups).find?
        (XmlV2.rule_matches (digitsOf numcta)) ≠ none := by
      intro hnone
      exact (List.find?_eq_none.mp hnone r0 hmem') hr0m
    rcases Option.ne_none_iff_exists'.mp hsome with ⟨r, hr⟩
    refine ⟨r, hperm.mem_iff.mp (List.mem_of_find?_eq_some hr), List.find?_some hr,
      ?_, ?_⟩
    · unfold XmlV2.get_roles_for_account
      rw [if_neg h0, if_neg h1, hr]
    · intro r' hr'mem hr'm
      exact XmlV2.find?_max_sorted (digitsOf numcta) _
        (XmlV2.sorted_index groups) r hr r' (hperm.mem_iff.mpr hr'mem) hr'm
  · intro hall
    have hnone : (XmlV2.build_account_role_index groups).find?
        (XmlV2.rule_matches (digitsOf numcta)) = none := by
      rw [List.find?_eq_none]
      intro x hx
      exact hall x (hperm.mem_iff.mp hx)
    unfold XmlV2.get_roles_for_account
    rw [if_neg h0, if_neg h1, hnone]

/-- C4 witness: a concrete catalogue where both a one-digit and a three-digit
prefix match the account reference `"401-1"`; the three-digit rule wins. -/
theorem C4_witness :
    ∃ r ∈ XmlV2.role_rules [⟨"4", "Ventas"⟩, ⟨"401", "Clientes"⟩],
      XmlV2.rule_matches (digitsOf "401-1") r = true ∧
      XmlV2.get_roles_for_account "401-1"
        (XmlV2.build_account_role_index [⟨"4", "Ventas"⟩, ⟨"401", "Clientes"⟩]) =
        r.roles ∧
      ∀ r' ∈ XmlV2.role_rules [⟨"4", "Ventas"⟩, ⟨"401", "Clientes"⟩],
        XmlV2.rule_matches (digitsOf "401-1") r' = true →
          r'.prefix_digits.length ≤ r.prefix_digits.length :=
  (C4_longest_prefix_wins [⟨"4", "Ventas"⟩, ⟨"401", "Clientes"⟩] "401-1"
    (by decide) (by decide)).1
    ⟨⟨"401", "Clientes", XmlV2.infer_account_roles_from_group "401" "Clientes"⟩,
      by decide, by decide⟩

/-! ## C2, C5, C8: the journal row builder -/

namespace XmlV2

lemma folios_append (a b : List Row) : folios (a ++ b) = folios a ++ folios b := by
  simp [folios]

lemma mem_trans_am_rows {t : Transaccion} {r : Row} (h : r ∈ trans_am_rows t) :
    ∃ u, r = Row.AM u := by
  rcases List.mem_filterMap.mp h with ⟨c, _, hf⟩
  by_cases hu : compnal_uuid c = ""
  · simp [hu] at hf
  · simp only [hu, if_false] at hf
    exact ⟨compnal_uuid c, (Option.some_inj.mp hf).symm⟩

lemma mem_poliza_body {pol : Poliza} {r : Row} (h : r ∈ poliza_body pol) :
    (∃ ref t, r = m1_row ref t) ∨ (∃ u, r = Row.AM u) := by
  rcases List.mem_flatMap.mp h with ⟨t, _, hr⟩
  rcases List.mem_cons.mp hr with rfl | hr
  · exact Or.inl ⟨_, t, rfl⟩
  · exact Or.inr (mem_trans_am_rows hr)

lemma folio_of_m1 (ref : String) (t : Transaccion) :
    (match m1_row ref t with
      | Row.P _ _ folio _ _ _ _ _ _ _ => some folio
      | _ => none) = (none : Option Nat) := rfl

lemma folios_poliza_body (pol : Poliza) : folios (poliza_body pol) = [] := by
  unfold folios
  rw [List.filterMap_eq_nil]
  intro r hr
  rcases mem_poliza_body hr with ⟨ref, t, rfl⟩ | ⟨u, rfl⟩
  · rfl
  · rfl

lemma folios_ad_block (us : List String) : folios (us.map Row.AD) = [] := by
  unfold folios
  rw [List.filterMap_eq_nil]
  intro r hr
  rcases List.mem_map.mp hr with ⟨u, _, rfl⟩
  rfl

lemma folios_poliza_rows (pol : Poliza) (idx : List RoleRule) (f : Nat) :
    folios (poliza_rows pol idx f) = [f] := by
  unfold poliza_rows
  show folios (p_row pol idx f :: (poliza_body pol ++ (ad_uuids pol).map Row.AD)) = [f]
  have h1 : folios [p_row pol idx f] = [f] := by
    unfold folios p_row
    rfl
  have : p_row pol idx f :: (poliza_body pol ++ (ad_uuids pol).map Row.AD) =
      [p_row pol idx f] ++ poliza_body pol ++ (ad_uuids pol).map Row.AD := by
    simp
  rw [this, folios_append, folios_append, h1, folios_poliza_body,
    folios_ad_block]
  simp

lemma folios_build_rows_aux (idx : List RoleRule) (ps : List Poliza) :
    ∀ f : Nat,
      folios (build_rows_aux idx ps f) =
        List.range' f (ps.countP fun p => !poliza_excluded p) := by
  induction ps with
  | nil =>
    intro f
    simp [build_rows_aux, folios]
  | cons pol rest ih =>
    intro f
    by_cases h : poliza_excluded pol = true
    · rw [List.countP_cons]
      simp only [h, Bool.not_true]
      simpa [build_rows_aux, h] using ih f
    · have hb : poliza_excluded pol = false := by
        cases hx : poliza_excluded pol
        · rfl
        · exact absurd hx h
      rw [List.countP_cons]
      simp only [hb, Bool.not_false, if_pos]
      unfold build_rows_aux
      rw [hb]
      simp only [Bool.false_eq_true, if_false]
      rw [folios_append, folios_poliza_rows, ih (f + 1), List.range'_succ]
      rfl

end XmlV2

/-- C5: the folio numbers carried by the emitted `P` header rows, in output
order, are exactly `1, 2, …, k` where `k` is the number of non-excluded
entries: the folio starts at 1 and is incremented once per emitted entry
only, also across excluded entries. -/
theorem C5_folio_sequence (idx : List XmlV2.RoleRule) (ps : List XmlV2.Poliza) :
    XmlV2.folios (XmlV2.build_rows_from_parsed_v2 ps idx) =
      List.range' 1 (ps.countP fun p => !XmlV2.poliza_excluded p) :=
  XmlV2.folios_build_rows_aux idx ps 1

namespace XmlV2

lemma build_rows_aux_cons (idx : List RoleRule) (pol : Poliza)
    (rest : List Poliza) (f : Nat) :
    build_rows_aux idx (pol :: rest) f =
      if poliza_excluded pol = true then build_rows_aux idx rest f
      else poliza_rows pol idx f ++ build_rows_aux idx rest (f + 1) := rfl

end XmlV2

/-- C2 (corrected claim): a journal entry some of whose postings carry the
suspense/transitory marker phrase in their concept or account-description
field is excluded entirely: deleting it from the input changes nothing in the
output, so it emits zero rows and does not consume a folio number — the folio
assigned to every subsequently emitted entry is unchanged.  (The entry-level
concept field is not consulted by the exclusion test.) -/
theorem C2_excluded_entry_emits_nothing (idx : List XmlV2.RoleRule)
    (pre post : List XmlV2.Poliza) (pol : XmlV2.Poliza) (f : Nat)
    (h : XmlV2.poliza_excluded pol = true) :
    XmlV2.build_rows_aux idx (pre ++ pol :: post) f =
      XmlV2.build_rows_aux idx (pre ++ post) f := by
  induction pre generalizing f with
  | nil =>
    rw [List.nil_append, List.nil_append, XmlV2.build_rows_aux_cons, if_pos h]
  | cons q pre ih =>
    rw [List.cons_append, List.cons_append, XmlV2.build_rows_aux_cons,
      XmlV2.build_rows_aux_cons]
    by_cases hq : XmlV2.poliza_excluded q = true
    · rw [if_pos hq, if_pos hq, ih f]
    · rw [if_neg hq, if_neg hq, ih (f + 1)]

/-- C2 witness: a concrete excluded entry (marker in a posting description)
between no predecessor and one ordinary entry vanishes from the output. -/
theorem C2_witness :
    XmlV2.poliza_excluded XmlV2.polPostingMarker = true ∧
    XmlV2.build_rows_aux [] ([] ++ XmlV2.polPostingMarker :: [XmlV2.polPlain]) 1 =
      XmlV2.build_rows_aux [] ([] ++ [XmlV2.polPlain]) 1 :=
  ⟨by decide,
    C2_excluded_entry_emits_nothing [] [] [XmlV2.polPlain] XmlV2.polPostingMarker 1
      (by decide)⟩

/-- C2 counterexample: an entry whose header concept contains the marker
phrase, while no posting text does, is not excluded — its rows are emitted
(here: one `P` and one `M1` record) and it consumes folio 1, refuting the
claim for the "entry concept" half of its condition. -/
theorem C2_counterexample :
    containsSub "cuenta transitoria"
      (XmlV2.text_lower XmlV2.polConceptMarker.Concepto) = true ∧
    XmlV2.poliza_excluded XmlV2.polConceptMarker = false ∧
    (XmlV2.build_rows_from_parsed_v2 [XmlV2.polConceptMarker] []).length = 2 ∧
    XmlV2.folios (XmlV2.build_rows_from_parsed_v2 [XmlV2.polConceptMarker] []) =
      [1] := by
  refine ⟨by decide, by decide, ?_, ?_⟩
  · rfl
  · rfl

/-! ## C8: trailer records -/

namespace XmlV2

lemma am_uuids_of_append (a b : List Row) :
    am_uuids_of (a ++ b) = am_uuids_of a ++ am_uuids_of b := by
  simp [am_uuids_of]

lemma am_uuids_of_cons_am (u : String) (l : List Row) :
    am_uuids_of (Row.AM u :: l) = u :: am_uuids_of l := rfl

lemma am_uuids_of_cons_m1 (ref : String) (t : Transaccion) (l : List Row) :
    am_uuids_of (m1_row ref t :: l) = am_uuids_of l := rfl

lemma am_uuids_of_trans (ref : String) (t : Transaccion) :
    am_uuids_of (m1_row ref t :: trans_am_rows t) = trans_uuids t := by
  rw [am_uuids_of_cons_m1]
  unfold trans_am_rows trans_uuids
  induction t.CompNal with
  | nil => rfl
  | cons c cs ih =>
    rw [List.filterMap_cons, List.filterMap_cons]
    by_cases hu : compnal_uuid c = ""
    · simp only [if_pos hu]
      exact ih
    · simp only [if_neg hu]
      rw [am_uuids_of_cons_am, ih]

lemma am_uuids_of_body (pol : Poliza) : am_uuids_of (poliza_body pol) = ad_uuids pol := by
  unfold poliza_body ad_uuids
  induction pol.Transacciones with
  | nil => rfl
  | cons t ts ih =>
    rw [List.flatMap_cons, List.flatMap_cons, am_uuids_of_append,
      am_uuids_of_trans, ih]

lemma no_ad_in_body (pol : Poliza) :
    ∀ r ∈ poliza_body pol, is_ad_row r = false := by
  intro r hr
  rcases mem_poliza_body hr with ⟨ref, t, rfl⟩ | ⟨u, rfl⟩
  · rfl
  · rfl

end XmlV2

/-- C8 (corrected claim): for every emitted journal entry, the block of `AD`
trailer records equals, in order, one trailer per `AM` attachment record
emitted for the entry — one per attachment occurrence, so an identifier
attached by several postings is repeated, not deduplicated — and all trailers
are placed after the header, posting and attachment records of the entry,
never interleaved among them. -/
theorem C8_trailer_records (idx : List XmlV2.RoleRule) (pol : XmlV2.Poliza)
    (f : Nat) :
    XmlV2.poliza_rows pol idx f =
      XmlV2.p_row pol idx f ::
        (XmlV2.poliza_body pol ++
          (XmlV2.am_uuids_of (XmlV2.poliza_body pol)).map XmlV2.Row.AD) ∧
    XmlV2.is_ad_row (XmlV2.p_row pol idx f) = false ∧
    (∀ r ∈ XmlV2.poliza_body pol, XmlV2.is_ad_row r = false) := by
  refine ⟨?_, rfl, XmlV2.no_ad_in_body pol⟩
  unfold XmlV2.poliza_rows
  rw [XmlV2.am_uuids_of_body]

/-- C8 witness: the trailer decomposition evaluated on the duplicate-UUID
fixture. -/
theorem C8_witness :
    XmlV2.poliza_rows XmlV2.polDupUuid [] 1 =
      XmlV2.p_row XmlV2.polDupUuid [] 1 ::
        (XmlV2.poliza_body XmlV2.polDupUuid ++
          (XmlV2.am_uuids_of (XmlV2.poliza_body XmlV2.polDupUuid)).map
            XmlV2.Row.AD) :=
  (C8_trailer_records [] XmlV2.polDupUuid 1).1

/-- C8 counterexample: an entry whose two postings attach the same document
identifier yields two `AD` trailer records for that identifier, not exactly
one per unique identifier. -/
theorem C8_counterexample :
    XmlV2.ad_uuids XmlV2.polDupUuid = ["X", "X"] ∧
    ((XmlV2.build_rows_from_parsed_v2 [XmlV2.polDupUuid] []).filter
      fun r => decide (r = XmlV2.Row.AD "X")).length = 2 := by
  refine ⟨?_, ?_⟩
  · rfl
  · rfl

/-- C1 witness: with a concrete role index resolving account `102` to the
bank role, `201` to customer, `301` to supplier and `601` to expense, the
classifier yields 1, 2 and 3 on the three particular entry shapes. -/
theorem C1_witness :
    XmlV2.determine_tipopol_v2
      [⟨"Cargo", "Bancos", "102", "0", "10", []⟩,
       ⟨"Abono", "Clientes", "201", "10", "0", []⟩]
      [⟨"1", "Bancos", [XmlV2.Role.bank]⟩,
       ⟨"2", "Clientes", [XmlV2.Role.customer]⟩,
       ⟨"3", "Proveedores", [XmlV2.Role.supplier]⟩,
       ⟨"6", "Gastos", [XmlV2.Role.expense]⟩] = 1 ∧
    XmlV2.determine_tipopol_v2
      [⟨"Abono", "Bancos", "102", "10", "0", []⟩,
       ⟨"Cargo", "Proveedores", "301", "0", "10", []⟩]
      [⟨"1", "Bancos", [XmlV2.Role.bank]⟩,
       ⟨"2", "Clientes", [XmlV2.Role.customer]⟩,
       ⟨"3", "Proveedores", [XmlV2.Role.supplier]⟩,
       ⟨"6", "Gastos", [XmlV2.Role.expense]⟩] = 2 ∧
    XmlV2.determine_tipopol_v2
      [⟨"Cargo", "Gastos varios", "601", "0", "10", []⟩,
       ⟨"Cargo", "Gastos varios", "602", "0", "10", []⟩]
      [⟨"1", "Bancos", [XmlV2.Role.bank]⟩,
       ⟨"2", "Clientes", [XmlV2.Role.customer]⟩,
       ⟨"3", "Proveedores", [XmlV2.Role.supplier]⟩,
       ⟨"6", "Gastos", [XmlV2.Role.expense]⟩] = 3 :=
  ⟨(C1_determine_tipopol_v2
      [⟨"1", "Bancos", [XmlV2.Role.bank]⟩,
       ⟨"2", "Clientes", [XmlV2.Role.customer]⟩,
       ⟨"3", "Proveedores", [XmlV2.Role.supplier]⟩,
       ⟨"6", "Gastos", [XmlV2.Role.expense]⟩]
      []
      ⟨"Cargo", "Bancos", "102", "0", "10", []⟩
      ⟨"Abono", "Clientes", "201", "10", "0", []⟩).2.2.2.1
      (by decide) (by decide),
   (C1_determine_tipopol_v2
      [⟨"1", "Bancos", [XmlV2.Role.bank]⟩,
       ⟨"2", "Clientes", [XmlV2.Role.customer]⟩,
       ⟨"3", "Proveedores", [XmlV2.Role.supplier]⟩,
       ⟨"6", "Gastos", [XmlV2.Role.expense]⟩]
      []
      ⟨"Abono", "Bancos", "102", "10", "0", []⟩
      ⟨"Cargo", "Proveedores", "301", "0", "10", []⟩).2.2.2.2.1
      (by decide) (by decide),
   (C1_determine_tipopol_v2
      [⟨"1", "Bancos", [XmlV2.Role.bank]⟩,
       ⟨"2", "Clientes", [XmlV2.Role.customer]⟩,
       ⟨"3", "Proveedores", [XmlV2.Role.supplier]⟩,
       ⟨"6", "Gastos", [XmlV2.Role.expense]⟩]
      []
      ⟨"Cargo", "Gastos varios", "601", "0", "10", []⟩
      ⟨"Cargo", "Gastos varios", "602", "0", "10", []⟩).2.2.2.2.2
      (by decide) (by decide)⟩

/-! ## C6, C10: the ancestor stack of the hierarchy builder -/

namespace EntryTmpl

lemma dictGet?_nil (l : Nat) : dictGet? [] l = none := rfl

lemma dictGet?_cons (a : Nat × String) (d : List (Nat × String)) (l : Nat) :
    dictGet? (a :: d) l = if a.1 = l then some a.2 else dictGet? d l := by
  unfold dictGet?
  rw [List.find?_cons]
  by_cases h : a.1 = l <;> simp [h]

lemma dictDropGT_cons (a : Nat × String) (d : List (Nat × String)) (m : Nat) :
    dictDropGT (a :: d) m =
      if a.1 ≤ m then a :: dictDropGT d m else dictDropGT d m := by
  unfold dictDropGT
  rw [List.filter_cons]
  by_cases h : a.1 ≤ m <;> simp [h]

lemma dictGet?_dropGT (d : List (Nat × String)) (m l : Nat) :
    dictGet? (dictDropGT d m) l = if l ≤ m then dictGet? d l else none := by
  induction d with
  | nil =>
    show dictGet? [] l = if l ≤ m then dictGet? [] l else none
    rw [dictGet?_nil]
    by_cases h : l ≤ m
    · rw [if_pos h]
    · rw [if_neg h]
  | cons a d ih =>
    rw [dictDropGT_cons]
    by_cases ha : a.1 ≤ m
    · rw [if_pos ha, dictGet?_cons, dictGet?_cons]
      by_cases hal : a.1 = l
      · rw [if_pos hal, if_pos hal, if_pos (by omega)]
      · rw [if_neg hal, if_neg hal, ih]
    · rw [if_neg ha, ih]
      by_cases hlm : l ≤ m
      · rw [if_pos hlm, if_pos hlm, dictGet?_cons, if_neg (by omega)]
      · rw [if_neg hlm, if_neg hlm]

lemma dictGet?_map_overwrite (d : List (Nat × String)) (k : Nat) (v : String)
    (l : Nat) :
    dictGet? (d.map fun p => if p.1 = k then (k, v) else p) l =
      if l = k then (if d.any fun p => p.1 = k then some v else none)
      else dictGet? d l := by
  induction d with
  | nil =>
    show dictGet? [] l = if l = k then (if false = true then some v else none)
      else dictGet? [] l
    rw [dictGet?_nil]
    by_cases hlk : l = k
    · rw [if_pos hlk]
      rfl
    · rw [if_neg hlk]
  | cons a d ih =>
    by_cases hak : a.1 = k
    · rw [List.map_cons, if_pos hak, dictGet?_cons]
      by_cases hlk : l = k
      · rw [if_pos (by omega : (k, v).1 = l), if_pos hlk]
        have : (List.any (a :: d) fun p => p.1 = k) = true := by
          simp [List.any_cons, hak]
        rw [this, if_pos rfl]
      · rw [if_neg (by omega : ¬(k, v).1 = l), ih, if_neg hlk, if_neg hlk,
          dictGet?_cons, if_neg (by omega)]
    · rw [List.map_cons, if_neg hak, dictGet?_cons]
      by_cases hal : a.1 = l
      · rw [if_pos hal, if_neg (by omega : ¬l = k), dictGet?_cons, if_pos hal]
      · rw [if_neg hal, ih]
        by_cases hlk : l = k
        · rw [if_pos hlk, if_pos hlk]
          have : (List.any (a :: d) fun p => p.1 = k) =
              (List.any d fun p => p.1 = k) := by
            simp [List.any_cons, hak]
          rw [this]
        · rw [if_neg hlk, if_neg hlk, dictGet?_cons, if_neg hal]

lemma dictGet?_append_new (d : List (Nat × String)) (k : Nat) (v : String)
    (l : Nat) (hno : (d.any fun p => p.1 = k) = false) :
    dictGet? (d ++ [(k, v)]) l = if l = k then some v else dictGet? d l := by
  induction d with
  | nil =>
    rw [List.nil_append, dictGet?_cons]
    by_cases hlk : l = k
    · rw [if_pos (by omega : (k, v).1 = l), if_pos hlk]
    · rw [if_neg (by omega : ¬(k, v).1 = l), if_neg hlk]
  | cons a d ih =>
    simp only [List.any_cons, Bool.or_eq_false_iff] at hno
    have hak : a.1 ≠ k := by simpa using hno.1
    rw [List.cons_append, dictGet?_cons]
    by_cases hal : a.1 = l
    · rw [if_pos hal, if_neg (by omega : ¬l = k), dictGet?_cons, if_pos hal]
    · rw [if_neg hal, ih hno.2]
      by_cases hlk : l = k
      · rw [if_pos hlk, if_pos hlk]
      · rw [if_neg hlk, if_neg hlk, dictGet?_cons, if_neg hal]

lemma dictGet?_insert (d : List (Nat × String)) (k : Nat) (v : String)
    (l : Nat) :
    dictGet? (dictInsert d k v) l = if l = k then some v else dictGet? d l := by
  unfold dictInsert
  by_cases hany : (d.any fun p => p.1 = k) = true
  · rw [if_pos hany, dictGet?_map_overwrite, hany]
    by_cases hlk : l = k
    · rw [if_pos hlk, if_pos hlk, if_pos rfl]
    · rw [if_neg hlk, if_neg hlk]
  · have hno : (d.any fun p => p.1 = k) = false := by
      cases hx : d.any fun p => p.1 = k
      · rfl
      · exact absurd hx hany
    rw [if_neg hany, dictGet?_append_new d k v l hno]

lemma dictGet?_step (d : List (Nat × String)) (k : Nat) (v : String) (l : Nat) :
    dictGet? (dictDropGT (dictInsert d k v) k) l =
      if l = k then some v else if l < k then dictGet? d l else none := by
  rw [dictGet?_dropGT, dictGet?_insert]
  by_cases hlk : l = k
  · rw [if_pos (hlk ▸ le_refl l), if_pos hlk, if_pos hlk]
  · by_cases hle : l ≤ k
    · rw [if_pos hle, if_neg hlk, if_neg hlk, if_pos (by omega)]
    · rw [if_neg hle, if_neg hlk, if_neg (by omega)]

end EntryTmpl

namespace EntryTmpl

lemma stateAfter_append_singleton (sat : List (String × String × String))
    (today : String) (st : BuildState) (rows : List CatRow) (r : CatRow) :
    stateAfter sat today st (rows ++ [r]) =
      (build_step sat today (stateAfter sat today st rows) r).1 := by
  unfold stateAfter
  rw [List.foldl_append]
  rfl

lemma stateAfter_cons (sat : List (String × String × String)) (today : String)
    (st : BuildState) (r : CatRow) (rows : List CatRow) :
    stateAfter sat today st (r :: rows) =
      stateAfter sat today (build_step sat today st r).1 rows := rfl

lemma build_step_none (sat : List (String × String × String)) (today : String)
    (st : BuildState) (r : CatRow) (h : recover_code_name r = none) :
    build_step sat today st r = (st, none) := by
  unfold build_step
  rw [h]

lemma build_step_some (sat : List (String × String × String)) (today : String)
    (st : BuildState) (r : CatRow) (code name : String)
    (h : recover_code_name r = some (code, name)) :
    build_step sat today st r =
      (step_state st r.indent code name,
       some ⟨normalize_code code TOTAL_DIGITS, name, step_cta_sup st r.indent,
         pyStrip r.tipoCell,
         (step_sat_fields sat (step_state st r.indent code name) r.indent
           name).1,
         today,
         (step_sat_fields sat (step_state st r.indent code name) r.indent
           name).2.1,
         (step_sat_fields sat (step_state st r.indent code name) r.indent
           name).2.2⟩) := by
  unfold build_step
  rw [h]

lemma recovered_levels_append_none (rows : List CatRow) (r : CatRow)
    (h : recover_code_name r = none) :
    recovered_levels (rows ++ [r]) = recovered_levels rows := by
  unfold recovered_levels
  rw [List.filterMap_append]
  simp [h]

lemma recovered_levels_append_some (rows : List CatRow) (r : CatRow)
    (code name : String) (h : recover_code_name r = some (code, name)) :
    recovered_levels (rows ++ [r]) =
      recovered_levels rows ++ [(r.indent, code)] := by
  unfold recovered_levels
  rw [List.filterMap_append]
  simp [h]

lemma mostRecentRev_cons (n : Nat) (c : String) (rest : List (Nat × String))
    (l : Nat) :
    mostRecentRev ((n, c) :: rest) l =
      if n = l then some c else if n < l then none else mostRecentRev rest l :=
  rfl

/-- The stack invariant: after processing any row prefix, the ancestor-stack
entry at level `l` is the raw code of the most recently processed row at level
`l`, unless a later row at a shallower level has discarded it. -/
lemma code_stack_lookup (sat : List (String × String × String)) (today : String)
    (rows : List CatRow) (l : Nat) :
    dictGet? (stateAfter sat today initState rows).parent_code_by_indent l =
      mostRecentAt (recovered_levels rows) l := by
  induction rows using List.reverseRecOn with
  | nil => rfl
  | append_singleton rows r ih =>
    rw [stateAfter_append_singleton]
    cases hrec : recover_code_name r with
    | none =>
      rw [build_step_none sat today _ r hrec, recovered_levels_append_none rows r hrec]
      exact ih
    | some cn =>
      obtain ⟨code, name⟩ := cn
      rw [build_step_some sat today _ r code name hrec,
        recovered_levels_append_some rows r code name hrec]
      show dictGet? (dictDropGT (dictInsert
          (stateAfter sat today initState rows).parent_code_by_indent
          r.indent code) r.indent) l = _
      rw [dictGet?_step]
      unfold mostRecentAt
      rw [List.reverse_append, List.reverse_singleton, List.singleton_append,
        mostRecentRev_cons]
      by_cases h1 : l = r.indent
      · rw [if_pos h1, if_pos (by omega)]
      · rw [if_neg h1]
        by_cases h2 : l < r.indent
        · rw [if_pos h2, if_neg (by omega), if_neg (by omega)]
          exact ih
        · rw [if_neg h2, if_neg (by omega), if_pos (by omega)]

lemma build_catalog_aux_cons (sat : List (String × String × String))
    (today : String) (st : BuildState) (r : CatRow) (rest : List CatRow) :
    build_catalog_aux sat today st (r :: rest) =
      match build_step sat today st r with
      | (st', none) => build_catalog_aux sat today st' rest
      | (st', some o) => o :: build_catalog_aux sat today st' rest := rfl

lemma build_catalog_aux_append (sat : List (String × String × String))
    (today : String) (xs ys : List CatRow) :
    ∀ st : BuildState,
      build_catalog_aux sat today st (xs ++ ys) =
        build_catalog_aux sat today st xs ++
          build_catalog_aux sat today (stateAfter sat today st xs) ys := by
  induction xs with
  | nil =>
    intro st
    rfl
  | cons r xs ih =>
    intro st
    rw [List.cons_append, build_catalog_aux_cons, build_catalog_aux_cons,
      stateAfter_cons]
    cases hstep : build_step sat today st r with
    | mk st' oo =>
      cases oo with
      | none =>
        show build_catalog_aux sat today st' (xs ++ ys) = _
        rw [ih st']
      | some o =>
        show o :: build_catalog_aux sat today st' (xs ++ ys) = _
        rw [ih st', List.cons_append]

/-- Appending one row with a recoverable code appends exactly one output row,
whose fields come from the current ancestor stacks. -/
lemma emitted_row_of_recovered (sat : List (String × String × String))
    (today : String) (pre : List CatRow) (r : CatRow) (code name : String)
    (hrec : recover_code_name r = some (code, name)) :
    build_catalog_rows sat today (pre ++ [r]) =
      build_catalog_rows sat today pre ++
        [⟨normalize_code code TOTAL_DIGITS, name,
          step_cta_sup (stateAfter sat today initState pre) r.indent,
          pyStrip r.tipoCell,
          (step_sat_fields sat
            (step_state (stateAfter sat today initState pre) r.indent code name)
            r.indent name).1,
          today,
          (step_sat_fields sat
            (step_state (stateAfter sat today initState pre) r.indent code name)
            r.indent name).2.1,
          (step_sat_fields sat
            (step_state (stateAfter sat today initState pre) r.indent code name)
            r.indent name).2.2⟩] := by
  unfold build_catalog_rows
  rw [build_catalog_aux_append sat today pre [r] initState,
    build_catalog_aux_cons,
    build_step_some sat today _ r code name hrec]
  rfl

/-- With the invariant, the emitted parent code is the normalized code of the
most recently seen row at the level one above, or the all-zero root code. -/
lemma cta_sup_eq_mostRecent (sat : List (String × String × String))
    (today : String) (pre : List CatRow) (n : Nat) (h2 : 2 ≤ n) :
    step_cta_sup (stateAfter sat today initState pre) n =
      match mostRecentAt (recovered_levels pre) (n - 1) with
      | some p => normalize_code p TOTAL_DIGITS
      | none => String.mk (List.replicate TOTAL_DIGITS '0') := by
  unfold step_cta_sup
  rw [if_pos (by omega), code_stack_lookup]
  cases mostRecentAt (recovered_levels pre) (n - 1) with
  | none => rfl
  | some p => rfl

end EntryTmpl

/-- C6: the hierarchy builder resolves each recovered row's parent from the
ancestor stack at the level one less than its own: the emitted parent code is
the normalized code of the most recently seen row at that level (all-zero when
that level was discarded or never filled), and recording a row at level `n`
discards all stack entries at levels strictly deeper than `n`
(`dictGet?_step` shape, applied through `mostRecentAt`).  Concretely, for the
row sequence `(1,"1"), (2,"1.1"), (3,"1.1.1"), (2,"1.2")` the parent of
`"1.2"` resolves to the normalization of `"1"`, not of `"1.1.1"`. -/
theorem C6_hierarchy_parent (sat : List (String × String × String))
    (today : String) (pre : List EntryTmpl.CatRow) (r : EntryTmpl.CatRow)
    (code name : String)
    (hrec : EntryTmpl.recover_code_name r = some (code, name))
    (h2 : 2 ≤ r.indent) :
    (∃ o : EntryTmpl.OutRow,
      EntryTmpl.build_catalog_rows sat today (pre ++ [r]) =
        EntryTmpl.build_catalog_rows sat today pre ++ [o] ∧
      o.codigo = EntryTmpl.normalize_code code EntryTmpl.TOTAL_DIGITS ∧
      o.cta_sup =
        (match EntryTmpl.mostRecentAt (EntryTmpl.recovered_levels pre)
            (r.indent - 1) with
        | some p => EntryTmpl.normalize_code p EntryTmpl.TOTAL_DIGITS
        | none => String.mk (List.replicate EntryTmpl.TOTAL_DIGITS '0'))) ∧
    (EntryTmpl.build_catalog_rows [] "20240101" EntryTmpl.exampleRows).map
        (fun o => (o.codigo, o.cta_sup)) =
      [("10000000", "00000000"), ("11000000", "10000000"),
       ("11100000", "11000000"), ("12000000", "10000000")] := by
  constructor
  · refine ⟨_, EntryTmpl.emitted_row_of_recovered sat today pre r code name hrec,
      rfl, ?_⟩
    exact EntryTmpl.cta_sup_eq_mostRecent sat today pre r.indent h2
  · rfl

/-- C6 witness: the general parent-resolution statement applied to the fourth
row of the concrete example, whose parent resolves through the stack entry at
level 1. -/
theorem C6_witness :
    ∃ o : EntryTmpl.OutRow,
      EntryTmpl.build_catalog_rows [] "20240101"
          (EntryTmpl.exampleRows.take 3 ++ [⟨2, "1.2", "Bancos", ""⟩]) =
        EntryTmpl.build_catalog_rows [] "20240101" (EntryTmpl.exampleRows.take 3)
          ++ [o] ∧
      o.codigo = EntryTmpl.normalize_code "1.2" EntryTmpl.TOTAL_DIGITS ∧
      o.cta_sup =
        (match EntryTmpl.mostRecentAt
            (EntryTmpl.recovered_levels (EntryTmpl.exampleRows.take 3)) 1 with
        | some p => EntryTmpl.normalize_code p EntryTmpl.TOTAL_DIGITS
        | none => String.mk (List.replicate EntryTmpl.TOTAL_DIGITS '0')) :=
  (C6_hierarchy_parent [] "20240101" (EntryTmpl.exampleRows.take 3)
    ⟨2, "1.2", "Bancos", ""⟩ "1.2" "Bancos" (by decide) (by decide)).1

/-- C10: an account row at indent level greater than 1 for which no ancestor
is on the stack at the level one less (first row of the file at level 2, or a
skipped depth, or a branch discarded by a shallower row) is still emitted —
not skipped — and receives the root all-zero normalized code as its parent. -/
theorem C10_missing_ancestor_root_parent (sat : List (String × String × String))
    (today : String) (pre : List EntryTmpl.CatRow) (r : EntryTmpl.CatRow)
    (code name : String)
    (hrec : EntryTmpl.recover_code_name r = some (code, name))
    (h2 : 2 ≤ r.indent)
    (hmiss : EntryTmpl.mostRecentAt (EntryTmpl.recovered_levels pre)
      (r.indent - 1) = none) :
    ∃ o : EntryTmpl.OutRow,
      EntryTmpl.build_catalog_rows sat today (pre ++ [r]) =
        EntryTmpl.build_catalog_rows sat today pre ++ [o] ∧
      o.codigo = EntryTmpl.normalize_code code EntryTmpl.TOTAL_DIGITS ∧
      o.cta_sup = String.mk (List.replicate EntryTmpl.TOTAL_DIGITS '0') := by
  refine ⟨_, EntryTmpl.emitted_row_of_recovered sat today pre r code name hrec,
    rfl, ?_⟩
  rw [EntryTmpl.cta_sup_eq_mostRecent sat today pre r.indent h2, hmiss]

/-- C10 witness: a file whose first row sits at indent level 2 emits that row
with the all-zero parent code. -/
theorem C10_witness :
    ∃ o : EntryTmpl.OutRow,
      EntryTmpl.build_catalog_rows [] "20240101"
          ([] ++ [⟨2, "1.1", "Caja", ""⟩]) =
        EntryTmpl.build_catalog_rows [] "20240101" [] ++ [o] ∧
      o.codigo = EntryTmpl.normalize_code "1.1" EntryTmpl.TOTAL_DIGITS ∧
      o.cta_sup = String.mk (List.replicate EntryTmpl.TOTAL_DIGITS '0') :=
  C10_missing_ancestor_root_parent [] "20240101" [] ⟨2, "1.1", "Caja", ""⟩
    "1.1" "Caja" (by decide) (by decide) (by decide)

/-! ## C7: the nature-letter formula table -/

/-- C7 code-bug evidence: the generated column-`I` formula resolves section 4
to the `G`/`H` (Resultados) letter pair, but section 5 — which the reference
table's own layout says should share section 4's pair — resolves to the
order/memo pair `K` (`$L$12`), and sections 6, 7 and 8 reference rows 14–19 of
column `L`, which are empty, yielding no letter at all (section 8 should use
the `K`/`L` pair); a row with no leading digit still defaults to `"A"`. -/
theorem C7_section_letter_table :
    EntryTmpl.nature_formula_result "4000" "Ingresos" 10 0 = some "G" ∧
    EntryTmpl.nature_formula_result "4000" "Ingresos" 0 10 = some "H" ∧
    EntryTmpl.nature_formula_result "5000" "Costos" 10 0 = some "K" ∧
    EntryTmpl.l_deudora 5 = 12 ∧
    EntryTmpl.colL_cell 12 = some "K" ∧
    EntryTmpl.nature_formula_result "6000" "Gastos" 10 0 = none ∧
    EntryTmpl.nature_formula_result "7000" "Resultado financiero" 10 0 = none ∧
    EntryTmpl.nature_formula_result "8000" "Orden" 10 0 = none ∧
    EntryTmpl.nature_formula_result "8000" "Orden" 0 10 = none ∧
    EntryTmpl.nature_formula_result "X" "Notas" 10 0 = some "A" := by
  decide

/-! ## C9: merge idempotence -/

/-- C9: merging a catalogue with itself adds zero rows — every account of the
additional (identical) file already appears in the base code set — and the
merge result's rows are exactly the base rows, so the result equals the
original by normalized-code set. -/
theorem C9_merge_idempotent (f : List (List String)) :
    MergeAcc.merge_new_accounts f f = [] ∧
    MergeAcc.merged_rows f f = f := by
  have h1 : MergeAcc.merge_new_accounts f f = [] := by
    unfold MergeAcc.merge_new_accounts
    rw [List.filter_eq_nil_iff]
    intro a ha
    simp only [decide_eq_true_eq, Decidable.not_not]
    exact List.mem_map_of_mem _ ha
  refine ⟨h1, ?_⟩
  unfold MergeAcc.merged_rows
  rw [h1]
  simp
